import Mathlib

set_option maxRecDepth 16384

/-!
Shallow embedding of `rebuild_certificate.py`, a five-stage pipeline that
rebuilds a TLS trust bundle for one host:

1. `fetch_leaf_cert`   — `openssl s_client -showcerts`, first PEM block → `leaf.pem`
2. `extract_aia_issuer_url` — `openssl x509 -text`, regex `CA Issuers - URI:(\S+)`
3. `download_issuer`   — `curl -L url -o issuer.bin` (no `--fail` flag), size check
4. `issuer_to_pem`     — PEM pass-through or DER→PEM conversion → `issuer.pem`
5. `build_bundle` / `verify_bundle` — certifi roots + "\n" + issuer + "\n",
   then `openssl s_client -CAfile bundle`, success phrase scan of last 5 lines.

Python strings and bytes are modelled as `String` (byte strings are treated
through their text content; the size check `st_size < 200` becomes a length
check, exact for the ASCII artifacts involved).  External processes are
modelled by an environment `Env` recording, for one run, what each collaborator
returns; a collaborator process failure under `subprocess.run(check=True)`
surfaces as `PyExc.calledProcessError`, while the script's own `raise
RuntimeError(...)` statements surface as `PyExc.runtimeError`.  The working
directory is the record `FS` of the four artifact files, `none` = absent.
-/

namespace RebuildCert

/-- First index at which `pat` occurs in `l` (as a contiguous sublist), the
position semantics of `re.search` for a literal pattern. -/
def firstIdx (pat : List Char) : List Char → Option Nat
  | [] => if pat.isEmpty then some 0 else none
  | l@(_ :: t) => if pat.isPrefixOf l then some 0 else (firstIdx pat t).map (· + 1)

/-- Containment of a contiguous pattern, modelling Python's `in` on str/bytes. -/
def containsPat (pat l : List Char) : Bool := (firstIdx pat l).isSome

/-- Number of positions at which `pat` occurs in `l` (occurrences of the fixed
markers below cannot overlap themselves, so this counts certificate markers). -/
def countOcc (pat : List Char) : List Char → Nat
  | [] => 0
  | l@(_ :: t) => (if pat.isPrefixOf l then 1 else 0) + countOcc pat t

/-- Split on `'\n'` in the style of `str.split("\n")`: `n` separators give
`n + 1` fields, so a trailing newline yields a trailing empty field. -/
def splitLines : List Char → List (List Char)
  | [] => [[]]
  | c :: t =>
    if c = '\n' then [] :: splitLines t
    else
      match splitLines t with
      | [] => [[c]]
      | l :: ls => (c :: l) :: ls

/-- Python whitespace characters (the ASCII ones `str.strip` removes; the
collaborator outputs modelled here contain no exotic unicode whitespace). -/
def isPySpace (c : Char) : Bool :=
  (c = ' ') || (c = '\t') || (c = '\n') || (c = '\r') || (c = '\x0b') || (c = '\x0c')

/-- Model of `str.strip()`: drop leading and trailing whitespace. -/
def pyStrip (l : List Char) : List Char :=
  ((l.dropWhile isPySpace).reverse.dropWhile isPySpace).reverse

/-- Model of `str.splitlines()` restricted to `'\n'` line boundaries (the only boundary
occurring in the modelled `openssl` outputs): the empty string gives no lines
and a trailing newline does not open a final empty line. -/
def pySplitlines (l : List Char) : List (List Char) :=
  if l = [] then []
  else if l.getLast? = some '\n' then (splitLines l).dropLast
  else splitLines l

/-- Model of `xs[-n:]`: the last `n` elements. -/
def lastN (n : Nat) (l : List α) : List α := l.drop (l.length - n)

/-- The PEM begin marker, opening every certificate block. -/
def beginMark : List Char := ("-----BEGIN CERTIFICATE-----").data

/-- The PEM end marker. -/
def endMark : List Char := ("-----END CERTIFICATE-----").data

/-- The marker `issuer_to_pem` checks the converter output for (no dashes). -/
def bareBeginMark : List Char := ("BEGIN CERTIFICATE").data

/-- The literal prefix of the AIA regex `CA Issuers - URI:(\S+)`. -/
def aiaPat : List Char := ("CA Issuers - URI:").data

/-- The fixed success phrase `verify_bundle` looks for. -/
def successPhrase : List Char := ("Verify return code: 0 (ok)").data

/-- Message of the `RuntimeError` raised by `fetch_leaf_cert` (the spec's
`ExtractionError` category). -/
def extractionMsg : String := "Could not extract leaf certificate from openssl output."

/-- Message of the `RuntimeError` raised by `extract_aia_issuer_url` (the
spec's `MissingAIAError` category). -/
def missingAiaMsg : String := "No \x27CA Issuers\x27 AIA URL found in leaf certificate."

/-- Message of the `RuntimeError` raised by `download_issuer` (the spec's
`DownloadError` category). -/
def downloadMsg : String := "Issuer download failed or file is too small."

/-- Message of the `RuntimeError` raised by `issuer_to_pem` (the spec's
`ConversionError` category). -/
def conversionMsg : String := "DER->PEM conversion did not produce a PEM certificate."

/-- Fixed prefix of the `RuntimeError` message raised by `verify_bundle` (the
spec's `VerificationFailedError` category); the diagnostic tail follows it. -/
def verifyMsgHead : String := "Bundle verification failed.\n\nLast lines:\n"

/-- Model of `re.search(r"-----BEGIN CERTIFICATE-----.*?-----END CERTIFICATE-----", s, re.S)`:
the match starts at the first begin marker and, non-greedily, ends at the first
end marker starting after that begin marker's 27 characters.  (If the first
begin marker has no end marker after it then no later one has either, so the
whole search fails exactly when this scheme fails.) -/
def extractBlock (l : List Char) : Option (List Char) :=
  match firstIdx beginMark l with
  | none => none
  | some i =>
    match firstIdx endMark (l.drop (i + beginMark.length)) with
    | none => none
    | some j => some ((l.drop i).take (beginMark.length + j + endMark.length))

/-- Model of `re.search(r"CA Issuers - URI:(\S+)", s)`: scan left to right for a
position where the literal matches and is followed by at least one
non-whitespace character; the group is the maximal non-whitespace run there.
Positions where the literal matches but is followed by whitespace or the end
of the string cannot complete the pattern, so the scan passes over them. -/
def findAia : List Char → Option (List Char)
  | [] => none
  | l@(_ :: t) =>
    if aiaPat.isPrefixOf l && (match l.drop aiaPat.length with
        | [] => false
        | c :: _ => ! isPySpace c) then
      some ((l.drop aiaPat.length).takeWhile (fun c => ! isPySpace c))
    else findAia t

/-- The outcome of one `subprocess.run(check=True)` invocation: either the
process exited nonzero (`CalledProcessError`) or it completed with this stdout
(for the DER conversion: with this file written). -/
inductive ProcResult where
  | procFail
  | procOk (out : String)
deriving DecidableEq

/-- The outcome of `curl -L url -o file`: either the transfer failed as a
process (network error, nonzero exit), or the HTTP transaction completed with
some status and the response body was saved.  Without `--fail`, curl exits 0
for any completed transaction, whatever the HTTP status. -/
inductive CurlResult where
  | netFail
  | completed (status : Nat) (body : String)
deriving DecidableEq

/-- A raised Python exception, as far as the pipeline distinguishes them:
the script's own `raise RuntimeError(msg)` statements, or a
`subprocess.CalledProcessError` propagating from a `check=True` collaborator
call (tagged by the failing command). -/
inductive PyExc where
  | runtimeError (msg : String)
  | calledProcessError (cmd : String)
deriving DecidableEq

/-- Equality of stage outcomes is decidable, so concrete runs can be checked
by evaluation. -/
instance : DecidableEq (Except PyExc Unit)
  | .ok (), .ok () => isTrue rfl
  | .ok (), .error _ => isFalse (fun h => Except.noConfusion h)
  | .error _, .ok () => isFalse (fun h => Except.noConfusion h)
  | .error e1, .error e2 =>
    if h : e1 = e2 then isTrue (h ▸ rfl)
    else isFalse (fun hc => h (Except.error.inj hc))

/-- One run's collaborator trace: what each external process returns when the
pipeline invokes it. -/
structure Env where
  sClientShow : ProcResult
  x509TextDump : ProcResult
  curl : CurlResult
  derConvert : ProcResult
  roots : String
  verifyStdout : String
  verifyStderr : String

/-- The working directory `.cert_work`: the four artifact files. -/
structure FS where
  leafPem : Option String
  issuerBin : Option String
  issuerPem : Option String
  bundlePem : Option String
deriving DecidableEq

/-- Stage 1, `fetch_leaf_cert`: run `openssl s_client -showcerts`, extract the first
PEM block from its stdout, write it (plus a trailing newline) to `leaf.pem`;
raise `RuntimeError` if no block is found. -/
def fetch_leaf_cert (env : Env) (fs : FS) : Except PyExc Unit × FS :=
  match env.sClientShow with
  | .procFail => (.error (.calledProcessError ("openssl s_client -showcerts")), fs)
  | .procOk out =>
    match extractBlock out.data with
    | none =>
      (.error (.runtimeError extractionMsg), fs)
    | some b => (.ok (), { fs with leafPem := some (String.mk b ++ "\n") })

/-- Stage 2, `extract_aia_issuer_url`: run `openssl x509 -noout -text` on `leaf.pem`
and search the dump for `CA Issuers - URI:(\S+)`; raise `RuntimeError` when
absent.  The dump is the collaborator's output, recorded in the environment. -/
def extract_aia_issuer_url (env : Env) (fs : FS) : Except PyExc String × FS :=
  match env.x509TextDump with
  | .procFail => (.error (.calledProcessError ("openssl x509 -noout -text")), fs)
  | .procOk t =>
    match findAia t.data with
    | none =>
      (.error (.runtimeError missingAiaMsg), fs)
    | some u => (.ok (String.mk u), fs)

/-- Stage 3, `download_issuer`: run `curl -L url -o issuer.bin` with `check=True` but no
`--fail` flag, so a completed transaction of any HTTP status saves the body
and exits 0; then raise `RuntimeError` if the saved file is missing or smaller
than 200 bytes.  (A completed transfer writes the body, so the missing-file
arm of the Python check is subsumed by the size check here.) -/
def download_issuer (env : Env) (url : String) (fs : FS) : Except PyExc Unit × FS :=
  match env.curl with
  | .netFail => (.error (.calledProcessError ("curl -L " ++ url)), fs)
  | .completed _status body =>
    let fs' := { fs with issuerBin := some body }
    if body.length < 200 then
      (.error (.runtimeError downloadMsg), fs')
    else (.ok (), fs')

/-- Stage 4, `issuer_to_pem`: if the raw bytes contain the PEM begin marker, copy them
verbatim to `issuer.pem`; otherwise run the DER→PEM conversion (`check=True`)
and raise `RuntimeError` if the converted file lacks `BEGIN CERTIFICATE`. -/
def issuer_to_pem (env : Env) (fs : FS) : Except PyExc Unit × FS :=
  match fs.issuerBin with
  | none => (.error (.calledProcessError ("read issuer.bin")), fs)
  | some data =>
    if containsPat beginMark data.data then (.ok (), { fs with issuerPem := some data })
    else
      match env.derConvert with
      | .procFail => (.error (.calledProcessError ("openssl x509 -inform DER")), fs)
      | .procOk pem =>
        let fs' := { fs with issuerPem := some pem }
        if containsPat bareBeginMark pem.data then (.ok (), fs')
        else
          (.error (.runtimeError conversionMsg), fs')

/-- Stage 5a, `build_bundle`: write `certifi` roots, a newline, the issuer artifact and a
final newline to the bundle file. -/
def build_bundle (env : Env) (fs : FS) : Except PyExc Unit × FS :=
  match fs.issuerPem with
  | none => (.error (.calledProcessError ("read issuer.pem")), fs)
  | some issuer =>
    (.ok (), { fs with bundlePem := some (env.roots ++ "\n" ++ issuer ++ "\n") })

/-- The last five lines of `(stdout + "\n" + stderr).strip()`, joined with
newlines: the window `verify_bundle` scans for the success phrase. -/
def verifyTail (stdoutS stderrS : String) : List Char :=
  List.intercalate (['\n'])
    (lastN 5 (pySplitlines (pyStrip (stdoutS ++ "\n" ++ stderrS).data)))

/-- Whether the verifying TLS client reports success: the fixed phrase
`Verify return code: 0 (ok)` occurs in the last five output lines. -/
def reportsSuccess (env : Env) : Bool :=
  containsPat successPhrase (verifyTail env.verifyStdout env.verifyStderr)

/-- Stage 5b, `verify_bundle`: re-run `openssl s_client` with the bundle as CA file
(no `check=True`), scan the last five output lines for the success phrase, and
raise `RuntimeError` carrying those lines when the phrase is absent. -/
def verify_bundle (env : Env) (fs : FS) : Except PyExc Unit × FS :=
  let joined := verifyTail env.verifyStdout env.verifyStderr
  if containsPat successPhrase joined then (.ok (), fs)
  else
    (.error (.runtimeError (verifyMsgHead ++ String.mk joined)), fs)

/-- Model of `main`: the five stages strictly in sequence; any error return terminates
the run at that point with the state written so far. -/
def main (env : Env) (fs : FS) : Except PyExc Unit × FS :=
  match fetch_leaf_cert env fs with
  | (.error e, fs1) => (.error e, fs1)
  | (.ok (), fs1) =>
    match extract_aia_issuer_url env fs1 with
    | (.error e, fs2) => (.error e, fs2)
    | (.ok url, fs2) =>
      match download_issuer env url fs2 with
      | (.error e, fs3) => (.error e, fs3)
      | (.ok (), fs3) =>
        match issuer_to_pem env fs3 with
        | (.error e, fs4) => (.error e, fs4)
        | (.ok (), fs4) =>
          match build_bundle env fs4 with
          | (.error e, fs5) => (.error e, fs5)
          | (.ok (), fs5) => verify_bundle env fs5

/-! Derived run descriptors, read off from the control flow of `main`: the
issuer artifact the normalizer leaves behind, whether the run reaches the
bundle-building statement, the error of the first failing stage, and the
final state of the working directory.  They are proven to characterize
`main` below and exist so that theorems can speak about one aspect of a run
at a time. -/

/-- The issuer artifact `issuer.pem` produced by stages 3 and 4, as a function
of the curl outcome and converter outcome (`none` when either stage fails). -/
def issuerCore (cu : CurlResult) (dc : ProcResult) : Option String :=
  match cu with
  | .netFail => none
  | .completed _ body =>
    if body.length < 200 then none
    else if containsPat beginMark body.data then some body
    else
      match dc with
      | .procFail => none
      | .procOk pem => if containsPat bareBeginMark pem.data then some pem else none

/-- Whether stages 1 and 2 both succeed, as a function of the two `openssl`
collaborator outcomes. -/
def stage12Core (sc xd : ProcResult) : Bool :=
  match sc with
  | .procFail => false
  | .procOk o =>
    (extractBlock o.data).isSome &&
      (match xd with
       | .procFail => false
       | .procOk t => (findAia t.data).isSome)

/-- Whether the run reaches the bundle-building statement: stages 1–4 all
succeed. -/
def reachesBuild (env : Env) : Bool :=
  stage12Core env.sClientShow env.x509TextDump &&
    (issuerCore env.curl env.derConvert).isSome

/-- The bundle content the run writes, `none` when it fails before building.
It depends only on the first five environment fields — not on the verification
outcome, because the file is written before verification runs. -/
def bundleCore (sc xd : ProcResult) (cu : CurlResult) (dc : ProcResult)
    (roots : String) : Option String :=
  if stage12Core sc xd then
    (issuerCore cu dc).map (fun pem => roots ++ "\n" ++ pem ++ "\n")
  else none

/-- The bundle content of a run, as a function of the environment. -/
def bundleOf (env : Env) : Option String :=
  bundleCore env.sClientShow env.x509TextDump env.curl env.derConvert env.roots

/-- The verification stage's failure, `none` when the success phrase is found. -/
def verifyFailureOf (env : Env) : Option PyExc :=
  if reportsSuccess env then none
  else
    some (.runtimeError
      (verifyMsgHead ++ String.mk (verifyTail env.verifyStdout env.verifyStderr)))

/-- The error of the first failing stage of a run, `none` when all five stages
succeed.  (The read in `build_bundle` cannot fail inside `main` because stage 4
always writes `issuer.pem` before `main` calls `build_bundle`.) -/
def firstFailure (env : Env) : Option PyExc :=
  match env.sClientShow with
  | .procFail => some (.calledProcessError ("openssl s_client -showcerts"))
  | .procOk o =>
    match extractBlock o.data with
    | none => some (.runtimeError extractionMsg)
    | some _ =>
      match env.x509TextDump with
      | .procFail => some (.calledProcessError ("openssl x509 -noout -text"))
      | .procOk t =>
        match findAia t.data with
        | none => some (.runtimeError missingAiaMsg)
        | some u =>
          match env.curl with
          | .netFail => some (.calledProcessError ("curl -L " ++ String.mk u))
          | .completed _ body =>
            if body.length < 200 then some (.runtimeError downloadMsg)
            else if containsPat beginMark body.data then verifyFailureOf env
            else
              match env.derConvert with
              | .procFail => some (.calledProcessError ("openssl x509 -inform DER"))
              | .procOk pem =>
                if containsPat bareBeginMark pem.data then verifyFailureOf env
                else some (.runtimeError conversionMsg)

/-- The final state of the working directory after a run: each stage's write
persists up to and including the stage in which the run stops. -/
def runFS (env : Env) (fs : FS) : FS :=
  match env.sClientShow with
  | .procFail => fs
  | .procOk o =>
    match extractBlock o.data with
    | none => fs
    | some b =>
      let fs1 := { fs with leafPem := some (String.mk b ++ "\n") }
      match env.x509TextDump with
      | .procFail => fs1
      | .procOk t =>
        match findAia t.data with
        | none => fs1
        | some _ =>
          match env.curl with
          | .netFail => fs1
          | .completed _ body =>
            let fs2 := { fs1 with issuerBin := some body }
            if body.length < 200 then fs2
            else if containsPat beginMark body.data then
              { fs2 with issuerPem := some body,
                         bundlePem := some (env.roots ++ "\n" ++ body ++ "\n") }
            else
              match env.derConvert with
              | .procFail => fs2
              | .procOk pem =>
                let fs3 := { fs2 with issuerPem := some pem }
                if containsPat bareBeginMark pem.data then
                  { fs3 with bundlePem := some (env.roots ++ "\n" ++ pem ++ "\n") }
                else fs3

/-- Existence of a PEM certificate block: a begin marker followed, possibly at
a distance, by an end marker. -/
def HasCertBlock (l : List Char) : Prop :=
  ∃ p m q, l = p ++ (beginMark ++ (m ++ (endMark ++ q)))

/-- The block `b` is the first PEM certificate block of `l`: it spans from the
first begin marker of `l` to the first end marker after that begin marker. -/
def FirstBlockAt (l b : List Char) : Prop :=
  ∃ p m q, l = p ++ (beginMark ++ (m ++ (endMark ++ q)))
    ∧ b = beginMark ++ (m ++ endMark)
    ∧ firstIdx beginMark l = some p.length
    ∧ firstIdx endMark (m ++ (endMark ++ q)) = some m.length

/-! Concrete fixtures: sample collaborator outputs and environments used to
instantiate the theorems below on explicit runs. -/

/-- An empty working directory, the state of a fresh checkout. -/
def fs0 : FS := { leafPem := none, issuerBin := none, issuerPem := none, bundlePem := none }

/-- A sample base64 payload line. -/
def b64a : String := "MIIDAAAABBBBCCCCDDDDEEEEFFFFGGGGHHHHIIIIJJJJKKKKLLLLMMMMNNNN"

/-- A sample `openssl s_client -showcerts` stdout holding one certificate. -/
def sampleLeafOut : String :=
  "CONNECTED(00000003)\n-----BEGIN CERTIFICATE-----\nMIIBleaf\n-----END CERTIFICATE-----\nDONE\n"

/-- The first (and only) certificate block of `sampleLeafOut`. -/
def leafBlockC : List Char :=
  ("-----BEGIN CERTIFICATE-----\nMIIBleaf\n-----END CERTIFICATE-----").data

/-- The sample AIA URL of the spec's acceptance test. -/
def aiaUrlC5 : String := "http://example.test/issuer.crt"

/-- The sample AIA line of the spec's acceptance test, with its newline. -/
def aiaLineC5 : String := "CA Issuers - URI:http://example.test/issuer.crt\n"

/-- A sample `openssl x509 -noout -text` dump holding that AIA line. -/
def sampleDump : String :=
  "        Authority Information Access: \n            " ++ aiaLineC5 ++
    "            OCSP - URI:http://ocsp.example.test\n"

/-- A sample dump with no `CA Issuers` line (a certificate without AIA). -/
def dumpNoAia : String := "Certificate:\n    Data:\n        Version: 3 (0x2)\n"

/-- A single-certificate PEM body of 237 bytes (above the 200-byte check). -/
def singleBlockPem : String :=
  "-----BEGIN CERTIFICATE-----\n" ++ b64a ++ "\n" ++ b64a ++ "\n" ++ b64a ++
    "\n-----END CERTIFICATE-----\n"

/-- A PEM body holding two certificate blocks, 230 bytes in total. -/
def twoBlockPem : String :=
  "-----BEGIN CERTIFICATE-----\n" ++ b64a ++ "\n-----END CERTIFICATE-----\n" ++
    "-----BEGIN CERTIFICATE-----\n" ++ b64a ++ "\n-----END CERTIFICATE-----\n"

/-- A 404 error page of more than 200 bytes, as served by common HTTP
servers. -/
def html404 : String :=
  "<html><head><title>404 Not Found</title></head><body><h1>Not Found</h1>" ++
    "<p>The requested URL /issuer.crt was not found on this server.</p><hr>" ++
    "<address>Apache Server at example.test Port 80</address></body></html>\n"

/-- A verification stdout whose last lines carry the success phrase. -/
def okVerifyOut : String :=
  "depth=2 C = US, O = Root CA\nverify return:1\nDONE\nVerify return code: 0 (ok)\n"

/-- A verification stdout reporting a failed chain verification. -/
def badVerifyOut : String :=
  "depth=0 CN = host\nverify error:num=21:unable to verify the first certificate\n" ++
    "Verify return code: 21 (unable to verify the first certificate)\nDONE\n"

/-- A fully successful run: one leaf block, one AIA URL, a large PEM issuer
download, a verification success. -/
def envOk : Env :=
  { sClientShow := ProcResult.procOk sampleLeafOut
    x509TextDump := ProcResult.procOk sampleDump
    curl := CurlResult.completed 200 singleBlockPem
    derConvert := ProcResult.procFail
    roots := "ROOT STORE PEM DATA\n"
    verifyStdout := okVerifyOut
    verifyStderr := "" }

/-- The successful run with extra verification stderr (same bundle inputs). -/
def envOk2 : Env := { envOk with verifyStderr := "extra" }

/-- The successful run, but the issuer download is a two-certificate PEM. -/
def envTwoBlocks : Env := { envOk with curl := CurlResult.completed 200 twoBlockPem }

/-- The successful run, but verification reports failure. -/
def envVerifyFail : Env := { envOk with verifyStdout := badVerifyOut }

/-- The run in which the issuer URL answers HTTP 404 with a large error page. -/
def env404Big : Env := { envOk with curl := CurlResult.completed 404 html404 }

/-- The run in which the issuer URL answers HTTP 404 with a small body. -/
def env404Small : Env := { envOk with curl := CurlResult.completed 404 "Not Found" }

/-- The run in which the TLS output carries no certificate block. -/
def envNoBlock : Env := { envOk with sClientShow := ProcResult.procOk ("connection refused\n") }

/-- The run in which the leaf certificate has no AIA extension. -/
def envNoAia : Env := { envOk with x509TextDump := ProcResult.procOk dumpNoAia }

/-- A concrete dump wrapping the sample AIA line, for instantiating the
locator acceptance test. -/
def dumpC5 : String := ("X:\n    ") ++ aiaLineC5 ++ ("    OCSP - URI:http://o\n")

/-- The run whose leaf dump is `dumpC5`. -/
def envC5 : Env := { envOk with x509TextDump := ProcResult.procOk dumpC5 }

/-- Bridge between the executable prefix test and the prefix relation. -/
theorem isPrefixOf_eq_true_iff {l1 l2 : List Char} :
    l1.isPrefixOf l2 = true ↔ l1 <+: l2 :=
  List.isPrefixOf_iff_prefix

/-! Characterization of `main` by the derived descriptors. -/

/-- A run of `main` returns the first failing stage's error (success when no
stage fails) and leaves the working directory in the state `runFS`. -/
theorem main_char (env : Env) (fs : FS) :
    main env fs =
      ((match firstFailure env with
        | some e => Except.error e
        | none => Except.ok ()), runFS env fs) := by
  cases hsc : env.sClientShow with
  | procFail =>
    simp [main, fetch_leaf_cert, firstFailure, runFS, hsc]
  | procOk o =>
    cases hb : extractBlock o.data with
    | none =>
      simp [main, fetch_leaf_cert, firstFailure, runFS, hsc, hb]
    | some b =>
      cases hxd : env.x509TextDump with
      | procFail =>
        simp [main, fetch_leaf_cert, extract_aia_issuer_url, firstFailure, runFS,
          hsc, hb, hxd]
      | procOk t =>
        cases ha : findAia t.data with
        | none =>
          simp [main, fetch_leaf_cert, extract_aia_issuer_url, firstFailure, runFS,
            hsc, hb, hxd, ha]
        | some u =>
          cases hcu : env.curl with
          | netFail =>
            simp [main, fetch_leaf_cert, extract_aia_issuer_url, download_issuer,
              firstFailure, runFS, hsc, hb, hxd, ha, hcu]
          | completed st body =>
            by_cases hlen : body.length < 200
            · simp [main, fetch_leaf_cert, extract_aia_issuer_url, download_issuer,
                firstFailure, runFS, hsc, hb, hxd, ha, hcu, hlen]
            · by_cases hpem : containsPat beginMark body.data = true
              · simp only [main, fetch_leaf_cert, extract_aia_issuer_url,
                  download_issuer, issuer_to_pem, build_bundle, verify_bundle,
                  verifyFailureOf, reportsSuccess, firstFailure, runFS, hsc, hb, hxd,
                  ha, hcu, hlen, hpem, if_true, if_false]
                by_cases hv :
                    containsPat successPhrase
                      (verifyTail env.verifyStdout env.verifyStderr) = true
                all_goals simp [hv, hlen]
              · cases hdc : env.derConvert with
                | procFail =>
                  simp [main, fetch_leaf_cert, extract_aia_issuer_url, download_issuer,
                    issuer_to_pem, firstFailure, runFS, hsc, hb, hxd, ha, hcu, hlen,
                    hpem, hdc]
                | procOk pem =>
                  by_cases hbc : containsPat bareBeginMark pem.data = true
                  · simp only [main, fetch_leaf_cert, extract_aia_issuer_url,
                      download_issuer, issuer_to_pem, build_bundle, verify_bundle,
                      verifyFailureOf, reportsSuccess, firstFailure, runFS, hsc, hb,
                      hxd, ha, hcu, hlen, hpem, hdc, hbc, if_true, if_false]
                    by_cases hv :
                        containsPat successPhrase
                          (verifyTail env.verifyStdout env.verifyStderr) = true
                    all_goals simp [hv, hlen, hpem]
                  · simp [main, fetch_leaf_cert, extract_aia_issuer_url,
                      download_issuer, issuer_to_pem, firstFailure, runFS, hsc, hb,
                      hxd, ha, hcu, hlen, hpem, hdc, hbc]

/-! Specification lemmas for the search primitive `firstIdx`. -/

/-- When `firstIdx` answers `some i`, the pattern occurs at `i` and at no
earlier position. -/
theorem firstIdx_some_spec (pat : List Char) :
    ∀ (l : List Char) (i : Nat), firstIdx pat l = some i →
      pat.isPrefixOf (l.drop i) = true ∧
        ∀ j, j < i → pat.isPrefixOf (l.drop j) = false := by
  intro l
  induction l with
  | nil =>
    intro i h
    by_cases hp : pat.isEmpty
    · simp only [firstIdx, hp, if_true, Option.some.injEq] at h
      subst h
      refine ⟨?_, by omega⟩
      rcases pat with _ | ⟨c, t⟩
      · rfl
      · simp [List.isEmpty] at hp
    · simp [firstIdx, hp] at h
  | cons c t ih =>
    intro i h
    by_cases hp : pat.isPrefixOf (c :: t) = true
    · simp only [firstIdx, hp, if_true, Option.some.injEq] at h
      subst h
      exact ⟨hp, by omega⟩
    · replace hp : pat.isPrefixOf (c :: t) = false := by
        revert hp
        cases pat.isPrefixOf (c :: t) <;> simp
      rcases hfi : firstIdx pat t with _ | i'
      · simp [firstIdx, hp, hfi] at h
      · simp [firstIdx, hp, hfi] at h
        subst h
        obtain ⟨h1, h2⟩ := ih i' hfi
        refine ⟨by simpa [List.drop_succ_cons] using h1, ?_⟩
        intro j hj
        rcases j with _ | j'
        · simpa using hp
        · simpa [List.drop_succ_cons] using h2 j' (by omega)

/-- When `firstIdx` answers `none`, the pattern occurs nowhere. -/
theorem firstIdx_none_spec (pat : List Char) :
    ∀ (l : List Char), firstIdx pat l = none →
      ∀ j, pat.isPrefixOf (l.drop j) = false := by
  intro l
  induction l with
  | nil =>
    intro h j
    by_cases hp : pat.isEmpty
    · simp [firstIdx, hp] at h
    · rcases pat with _ | ⟨c, t⟩
      · simp [List.isEmpty] at hp
      · simp [List.isPrefixOf]
  | cons c t ih =>
    intro h j
    by_cases hp : pat.isPrefixOf (c :: t) = true
    · simp [firstIdx, hp] at h
    · replace hp : pat.isPrefixOf (c :: t) = false := by
        revert hp
        cases pat.isPrefixOf (c :: t) <;> simp
      simp [firstIdx, hp, Option.map_eq_none'] at h
      rcases j with _ | j'
      · simpa using hp
      · simpa [List.drop_succ_cons] using ih h j'

/-- An occurrence at position `k` forces `firstIdx` to answer some `i ≤ k`. -/
theorem firstIdx_le_of_occ (pat l : List Char) (k : Nat)
    (h : pat.isPrefixOf (l.drop k) = true) :
    ∃ i, firstIdx pat l = some i ∧ i ≤ k := by
  cases hf : firstIdx pat l with
  | none => exact absurd h (by simp [firstIdx_none_spec pat l hf k])
  | some i =>
    refine ⟨i, rfl, ?_⟩
    by_contra hlt
    have := (firstIdx_some_spec pat l i hf).2 k (by omega)
    simp [this] at h

/-- Containment holds exactly when the pattern occurs at some position. -/
theorem containsPat_iff_occ (pat l : List Char) :
    containsPat pat l = true ↔ ∃ k, pat.isPrefixOf (l.drop k) = true := by
  constructor
  · intro h
    rcases hf : firstIdx pat l with _ | i
    · simp [containsPat, hf] at h
    · exact ⟨i, (firstIdx_some_spec pat l i hf).1⟩
  · rintro ⟨k, hk⟩
    obtain ⟨i, hi, _⟩ := firstIdx_le_of_occ pat l k hk
    simp [containsPat, hi]

/-- Containment restated through list decompositions. -/
theorem containsPat_iff_parts (pat l : List Char) :
    containsPat pat l = true ↔ ∃ p q, l = p ++ pat ++ q := by
  rw [containsPat_iff_occ]
  constructor
  · rintro ⟨k, hk⟩
    obtain ⟨q, hq⟩ := isPrefixOf_eq_true_iff.mp hk
    exact ⟨l.take k, q, by rw [List.append_assoc, hq, List.take_append_drop]⟩
  · rintro ⟨p, q, rfl⟩
    refine ⟨p.length, isPrefixOf_eq_true_iff.mpr ⟨q, ?_⟩⟩
    rw [List.append_assoc, List.drop_left]

/-! Lemmas about line splitting and marker counting. -/

/-- Splitting never produces an empty list of fields. -/
theorem splitLines_ne_nil : ∀ l : List Char, splitLines l ≠ [] := by
  intro l
  cases l with
  | nil => simp [splitLines]
  | cons c t =>
    by_cases hc : c = '\n'
    · simp [splitLines, hc]
    · rcases hsp : splitLines t with _ | ⟨l0, ls⟩ <;> simp [splitLines, hc, hsp]

/-- A newline separates fields: splitting distributes over it. -/
theorem splitLines_append (ys : List Char) :
    ∀ xs : List Char, splitLines (xs ++ '\n' :: ys) = splitLines xs ++ splitLines ys := by
  intro xs
  induction xs with
  | nil => simp [splitLines]
  | cons c t ih =>
    by_cases hc : c = '\n'
    · simp [splitLines, hc, ih]
    · rcases hsp : splitLines t with _ | ⟨l0, ls⟩
      · exact absurd hsp (splitLines_ne_nil t)
      · rw [hsp] at ih
        simp [splitLines, hc, ih, hsp]

/-- A pattern free of newlines cannot match across a newline: on a list with a
newline appended somewhere, it matches at the front exactly when it matches at
the front of the part before the newline. -/
theorem isPrefixOf_through_newline :
    ∀ (pat : List Char), '\n' ∉ pat → ∀ (xs ys : List Char),
      pat.isPrefixOf (xs ++ '\n' :: ys) = pat.isPrefixOf xs := by
  intro pat
  induction pat with
  | nil => intro _ xs ys; cases xs <;> simp [List.isPrefixOf]
  | cons p ps ih =>
    intro hnl xs ys
    have hp : p ≠ '\n' := by intro h; exact hnl (h ▸ List.mem_cons_self p ps)
    cases xs with
    | nil =>
      simp [List.isPrefixOf, beq_eq_false_iff_ne.mpr hp]
    | cons x xt =>
      simp only [List.cons_append, List.isPrefixOf, List.append_eq]
      rw [ih (fun h => hnl (List.mem_cons_of_mem p h)) xt ys]

/-- Marker occurrences are counted separately on the two sides of a newline,
for a nonempty marker free of newlines. -/
theorem countOcc_append_newline (pat : List Char) (hne : pat ≠ []) (hnl : '\n' ∉ pat)
    (ys : List Char) :
    ∀ xs : List Char, countOcc pat (xs ++ '\n' :: ys) = countOcc pat xs + countOcc pat ys := by
  intro xs
  induction xs with
  | nil =>
    have h0 : pat.isPrefixOf ([] ++ '\n' :: ys) = pat.isPrefixOf ([] : List Char) :=
      isPrefixOf_through_newline pat hnl [] ys
    rcases pat with _ | ⟨p, ps⟩
    · exact absurd rfl hne
    · simp only [List.nil_append] at h0
      have hfalse : (p :: ps).isPrefixOf ('\n' :: ys) = false := by
        rw [h0]; rfl
      simp [countOcc, hfalse]
  | cons x xt ih =>
    have hx : pat.isPrefixOf ((x :: xt) ++ '\n' :: ys) = pat.isPrefixOf (x :: xt) :=
      isPrefixOf_through_newline pat hnl (x :: xt) ys
    simp only [List.cons_append] at hx ⊢
    simp [countOcc, hx, ih]
    omega

/-- Under a predicate holding on all of `a`, `takeWhile` passes through `a`. -/
theorem takeWhile_append_all (P : Char → Bool) :
    ∀ (a l : List Char), (∀ c ∈ a, P c = true) →
      (a ++ l).takeWhile P = a ++ l.takeWhile P := by
  intro a
  induction a with
  | nil => intro l _; simp
  | cons c t ih =>
    intro l h
    have hc : P c = true := h c (List.mem_cons_self c t)
    simp [List.takeWhile, hc, ih l (fun d hd => h d (List.mem_cons_of_mem c hd))]

/-! Characterization of `extractBlock` (the leaf-extraction regex). -/

/-- The begin marker is nonempty. -/
theorem beginMark_ne_nil : beginMark ≠ [] := by decide

/-- The end marker is nonempty. -/
theorem endMark_ne_nil : endMark ≠ [] := by decide

/-- A successful extraction returns exactly the first certificate block. -/
theorem extractBlock_some_first (l b : List Char) (h : extractBlock l = some b) :
    FirstBlockAt l b := by
  rcases hf : firstIdx beginMark l with _ | i
  · simp [extractBlock, hf] at h
  · rcases hg : firstIdx endMark (l.drop (i + beginMark.length)) with _ | j
    · simp [extractBlock, hf, hg] at h
    · simp only [extractBlock, hf, hg, Option.some.injEq] at h
      have h1 : beginMark.isPrefixOf (l.drop i) = true := (firstIdx_some_spec _ _ _ hf).1
      obtain ⟨s₁, hs₁⟩ := isPrefixOf_eq_true_iff.mp h1
      have hdrop : l.drop (i + beginMark.length) = s₁ := by
        rw [← List.drop_drop, ← hs₁, List.drop_left]
      rw [hdrop] at hg
      have h2 : endMark.isPrefixOf (s₁.drop j) = true := (firstIdx_some_spec _ _ _ hg).1
      obtain ⟨s₂, hs₂⟩ := isPrefixOf_eq_true_iff.mp h2
      have hjle : j ≤ s₁.length := by
        by_contra hgt
        have hnil : s₁.drop j = [] := List.drop_eq_nil_of_le (by omega)
        rw [hnil] at hs₂
        exact endMark_ne_nil (List.append_eq_nil.mp hs₂).1
      obtain ⟨m, hm, hmlen⟩ : ∃ m, s₁ = m ++ (endMark ++ s₂) ∧ m.length = j :=
        ⟨s₁.take j, by rw [hs₂, List.take_append_drop], by rw [List.length_take]; omega⟩
      have hil : i ≤ l.length := by
        by_contra hgt
        have hnil : l.drop i = [] := List.drop_eq_nil_of_le (by omega)
        rw [hnil] at hs₁
        exact beginMark_ne_nil (List.append_eq_nil.mp hs₁).1
      have hble : l.drop i = beginMark ++ (m ++ (endMark ++ s₂)) := by
        rw [← hm, hs₁]
      have hbval : b = beginMark ++ (m ++ endMark) := by
        rw [← h, hble]
        have harith : beginMark.length + j + endMark.length
            = beginMark.length + (j + endMark.length) := by omega
        rw [harith, List.take_append, ← hmlen, List.take_append, List.take_left]
      refine ⟨l.take i, m, s₂, ?_, hbval, ?_, ?_⟩
      · conv_lhs => rw [← List.take_append_drop i l]
        rw [hble]
      · rw [hf, List.length_take]
        congr 1
        omega
      · rw [hm] at hg
        rw [← hmlen] at hg
        exact hg

/-- Extraction succeeds exactly on inputs containing a certificate block. -/
theorem extractBlock_isSome_iff (l : List Char) :
    (extractBlock l).isSome = true ↔ HasCertBlock l := by
  constructor
  · intro h
    rcases hx : extractBlock l with _ | b
    · simp [hx] at h
    · obtain ⟨p, m, q, hl, _, _, _⟩ := extractBlock_some_first l b hx
      exact ⟨p, m, q, hl⟩
  · rintro ⟨p, m, q, rfl⟩
    have hocc : beginMark.isPrefixOf
        ((p ++ (beginMark ++ (m ++ (endMark ++ q)))).drop p.length) = true := by
      rw [List.drop_left]
      exact isPrefixOf_eq_true_iff.mpr (List.prefix_append _ _)
    obtain ⟨i, hi, hile⟩ := firstIdx_le_of_occ _ _ _ hocc
    rcases hg : firstIdx endMark
        ((p ++ (beginMark ++ (m ++ (endMark ++ q)))).drop (i + beginMark.length)) with _ | j
    · exfalso
      have hocc2 : endMark.isPrefixOf
          (((p ++ (beginMark ++ (m ++ (endMark ++ q)))).drop (i + beginMark.length)).drop
            (p.length + m.length - i)) = true := by
        rw [List.drop_drop]
        have harith : i + beginMark.length + (p.length + m.length - i)
            = p.length + (beginMark.length + m.length) := by omega
        rw [harith]
        have hsplit : (p ++ (beginMark ++ (m ++ (endMark ++ q)))).drop
            (p.length + (beginMark.length + m.length)) = endMark ++ q := by
          rw [List.drop_append, List.drop_append, List.drop_left]
        rw [hsplit]
        exact isPrefixOf_eq_true_iff.mpr (List.prefix_append _ _)
      have hnone := firstIdx_none_spec _ _ hg (p.length + m.length - i)
      rw [hnone] at hocc2
      exact Bool.noConfusion hocc2
    · simp only [extractBlock, hi, hg, Option.isSome_some]

/-- Extraction fails exactly on inputs containing no certificate block. -/
theorem extractBlock_none_iff (l : List Char) :
    extractBlock l = none ↔ ¬ HasCertBlock l := by
  rw [← extractBlock_isSome_iff]
  cases extractBlock l <;> simp

/-! Characterization of `findAia` (the AIA-URL regex). -/

/-- When the first occurrence of the AIA literal is followed by a
non-whitespace character, the scan fires exactly there and returns the
non-whitespace run that follows the literal. -/
theorem findAia_eq_of_first (c : Char) (rest : List Char) (hc : isPySpace c = false) :
    ∀ (l : List Char) (i : Nat), firstIdx aiaPat l = some i →
      l.drop (i + aiaPat.length) = c :: rest →
      findAia l = some ((c :: rest).takeWhile (fun d => ! isPySpace d)) := by
  intro l
  induction l with
  | nil =>
    intro i hf _
    have hne : aiaPat.isEmpty = false := by decide
    simp [firstIdx, hne] at hf
  | cons x t ih =>
    intro i hf hrest
    by_cases hp : aiaPat.isPrefixOf (x :: t) = true
    · simp only [firstIdx, hp, if_true, Option.some.injEq] at hf
      subst hf
      rw [Nat.zero_add] at hrest
      simp [findAia, hp, hrest, hc]
    · replace hp : aiaPat.isPrefixOf (x :: t) = false := by
        revert hp
        cases aiaPat.isPrefixOf (x :: t) <;> simp
      rcases hfi : firstIdx aiaPat t with _ | i'
      · simp [firstIdx, hp, hfi] at hf
      · simp [firstIdx, hp, hfi] at hf
        subst hf
        have harith : i' + 1 + aiaPat.length = (i' + aiaPat.length) + 1 := by omega
        rw [harith, List.drop_succ_cons] at hrest
        simp only [findAia, hp, Bool.false_and, if_false]
        exact ih i' hfi hrest

/-- A hit of the scan witnesses an occurrence of the AIA literal. -/
theorem findAia_some_occurs :
    ∀ (l u : List Char), findAia l = some u →
      ∃ j, aiaPat.isPrefixOf (l.drop j) = true := by
  intro l
  induction l with
  | nil => intro u h; simp [findAia] at h
  | cons x t ih =>
    intro u h
    by_cases hcond : (aiaPat.isPrefixOf (x :: t) &&
        (match (x :: t).drop aiaPat.length with
         | [] => false
         | c :: _ => ! isPySpace c)) = true
    · refine ⟨0, ?_⟩
      rw [List.drop_zero]
      exact (Bool.and_eq_true _ _ |>.mp hcond).1
    · replace hcond : (aiaPat.isPrefixOf (x :: t) &&
          (match (x :: t).drop aiaPat.length with
           | [] => false
           | c :: _ => ! isPySpace c)) = false := by
        revert hcond
        cases aiaPat.isPrefixOf (x :: t) &&
          (match (x :: t).drop aiaPat.length with
           | [] => false
           | c :: _ => ! isPySpace c) <;> simp
      rw [show findAia (x :: t) = findAia t from by simp [findAia, hcond]] at h
      obtain ⟨j, hj⟩ := ih u h
      exact ⟨j + 1, by simpa [List.drop_succ_cons] using hj⟩

/-- A dump with no `CA Issuers` substring defeats the scan. -/
theorem findAia_none_of_no_ca (t : List Char)
    (h : containsPat (("CA Issuers").data) t = false) : findAia t = none := by
  rcases hx : findAia t with _ | u
  · rfl
  · exfalso
    obtain ⟨j, hj⟩ := findAia_some_occurs t u hx
    have hsub : ("CA Issuers").data <+: aiaPat := by decide
    have hocc : ("CA Issuers").data.isPrefixOf (t.drop j) = true :=
      isPrefixOf_eq_true_iff.mpr (hsub.trans (isPrefixOf_eq_true_iff.mp hj))
    have hcp := (containsPat_iff_occ (("CA Issuers").data) t).mpr ⟨j, hocc⟩
    rw [h] at hcp
    exact Bool.noConfusion hcp

/-! Corollaries of the characterization, one per aspect of a run. -/

/-- The returned exception of a run is its first stage failure. -/
theorem main_fst (env : Env) (fs : FS) :
    (main env fs).fst =
      (match firstFailure env with
       | some e => Except.error e
       | none => Except.ok ()) := by
  rw [main_char]

/-- The final working directory of a run. -/
theorem main_snd (env : Env) (fs : FS) : (main env fs).snd = runFS env fs := by
  rw [main_char]

/-- The bundle file after a run: written with content `bundleOf env` when the
run reaches the build, untouched otherwise. -/
theorem runFS_bundlePem (env : Env) (fs : FS) :
    (runFS env fs).bundlePem =
      (match bundleOf env with
       | some b => some b
       | none => fs.bundlePem) := by
  cases hsc : env.sClientShow with
  | procFail => simp [runFS, bundleOf, bundleCore, stage12Core, hsc]
  | procOk o =>
    cases hb : extractBlock o.data with
    | none => simp [runFS, bundleOf, bundleCore, stage12Core, hsc, hb]
    | some b =>
      cases hxd : env.x509TextDump with
      | procFail => simp [runFS, bundleOf, bundleCore, stage12Core, hsc, hb, hxd]
      | procOk t =>
        cases ha : findAia t.data with
        | none => simp [runFS, bundleOf, bundleCore, stage12Core, hsc, hb, hxd, ha]
        | some u =>
          cases hcu : env.curl with
          | netFail =>
            simp [runFS, bundleOf, bundleCore, stage12Core, issuerCore, hsc, hb, hxd,
              ha, hcu]
          | completed st body =>
            by_cases hlen : body.length < 200
            · simp [runFS, bundleOf, bundleCore, stage12Core, issuerCore, hsc, hb,
                hxd, ha, hcu, hlen]
            · by_cases hpem : containsPat beginMark body.data = true
              · simp [runFS, bundleOf, bundleCore, stage12Core, issuerCore, hsc, hb,
                  hxd, ha, hcu, hlen, hpem]
              · cases hdc : env.derConvert with
                | procFail =>
                  simp [runFS, bundleOf, bundleCore, stage12Core, issuerCore, hsc,
                    hb, hxd, ha, hcu, hlen, hpem, hdc]
                | procOk pem =>
                  by_cases hbc : containsPat bareBeginMark pem.data = true
                  · simp [runFS, bundleOf, bundleCore, stage12Core, issuerCore, hsc,
                      hb, hxd, ha, hcu, hlen, hpem, hdc, hbc]
                  · simp [runFS, bundleOf, bundleCore, stage12Core, issuerCore, hsc,
                      hb, hxd, ha, hcu, hlen, hpem, hdc, hbc]

/-- The bundle content is available exactly when the run reaches the build. -/
theorem bundleOf_isSome_eq (env : Env) :
    (bundleOf env).isSome = reachesBuild env := by
  unfold bundleOf bundleCore reachesBuild
  cases h12 : stage12Core env.sClientShow env.x509TextDump
  · simp
  · cases hic : issuerCore env.curl env.derConvert <;> simp [hic]

/-- A run with no failing stage reached the build. -/
theorem firstFailure_none_reaches (env : Env) (h : firstFailure env = none) :
    reachesBuild env = true := by
  cases hsc : env.sClientShow with
  | procFail => simp [firstFailure, hsc] at h
  | procOk o =>
    cases hb : extractBlock o.data with
    | none => simp [firstFailure, hsc, hb] at h
    | some b =>
      cases hxd : env.x509TextDump with
      | procFail => simp [firstFailure, hsc, hb, hxd] at h
      | procOk t =>
        cases ha : findAia t.data with
        | none => simp [firstFailure, hsc, hb, hxd, ha] at h
        | some u =>
          cases hcu : env.curl with
          | netFail => simp [firstFailure, hsc, hb, hxd, ha, hcu] at h
          | completed st body =>
            by_cases hlen : body.length < 200
            · simp [firstFailure, hsc, hb, hxd, ha, hcu, hlen] at h
            · by_cases hpem : containsPat beginMark body.data = true
              · simp [reachesBuild, stage12Core, issuerCore, hsc, hb, hxd, ha, hcu,
                  hlen, hpem]
              · cases hdc : env.derConvert with
                | procFail => simp [firstFailure, hsc, hb, hxd, ha, hcu, hlen, hpem, hdc] at h
                | procOk pem =>
                  by_cases hbc : containsPat bareBeginMark pem.data = true
                  · simp [reachesBuild, stage12Core, issuerCore, hsc, hb, hxd, ha,
                      hcu, hlen, hpem, hdc, hbc]
                  · simp [firstFailure, hsc, hb, hxd, ha, hcu, hlen, hpem, hdc, hbc] at h

/-- For a run reaching the build, the only remaining failure candidate is the
verification stage's. -/
theorem firstFailure_of_reaches (env : Env) (h : reachesBuild env = true) :
    firstFailure env = verifyFailureOf env := by
  cases hsc : env.sClientShow with
  | procFail => simp [reachesBuild, stage12Core, hsc] at h
  | procOk o =>
    cases hb : extractBlock o.data with
    | none => simp [reachesBuild, stage12Core, hsc, hb] at h
    | some b =>
      cases hxd : env.x509TextDump with
      | procFail => simp [reachesBuild, stage12Core, hsc, hb, hxd] at h
      | procOk t =>
        cases ha : findAia t.data with
        | none => simp [reachesBuild, stage12Core, hsc, hb, hxd, ha] at h
        | some u =>
          cases hcu : env.curl with
          | netFail => simp [reachesBuild, stage12Core, issuerCore, hsc, hb, hxd, ha, hcu] at h
          | completed st body =>
            by_cases hlen : body.length < 200
            · simp [reachesBuild, stage12Core, issuerCore, hsc, hb, hxd, ha, hcu, hlen] at h
            · by_cases hpem : containsPat beginMark body.data = true
              · simp [firstFailure, hsc, hb, hxd, ha, hcu, hlen, hpem]
              · cases hdc : env.derConvert with
                | procFail =>
                  simp [reachesBuild, stage12Core, issuerCore, hsc, hb, hxd, ha,
                    hcu, hlen, hpem, hdc] at h
                | procOk pem =>
                  by_cases hbc : containsPat bareBeginMark pem.data = true
                  · simp [firstFailure, hsc, hb, hxd, ha, hcu, hlen, hpem, hdc, hbc]
                  · simp [reachesBuild, stage12Core, issuerCore, hsc, hb, hxd, ha,
                      hcu, hlen, hpem, hdc, hbc] at h

/-- Every stage failure is either a propagated collaborator process failure or
one of the five scripted `RuntimeError`s. -/
theorem firstFailure_shapes (env : Env) (e : PyExc) (h : firstFailure env = some e) :
    (∃ c, e = PyExc.calledProcessError c)
      ∨ e = PyExc.runtimeError extractionMsg
      ∨ e = PyExc.runtimeError missingAiaMsg
      ∨ e = PyExc.runtimeError downloadMsg
      ∨ e = PyExc.runtimeError conversionMsg
      ∨ (∃ tailMsg, e = PyExc.runtimeError (verifyMsgHead ++ tailMsg)) := by
  cases hsc : env.sClientShow with
  | procFail =>
    rw [firstFailure, hsc] at h
    exact Or.inl ⟨_, (Option.some.injEq _ _ ▸ h).symm⟩
  | procOk o =>
    cases hb : extractBlock o.data with
    | none =>
      simp only [firstFailure, hsc, hb, Option.some.injEq] at h
      exact Or.inr (Or.inl h.symm)
    | some b =>
      cases hxd : env.x509TextDump with
      | procFail =>
        simp only [firstFailure, hsc, hb, hxd, Option.some.injEq] at h
        exact Or.inl ⟨_, h.symm⟩
      | procOk t =>
        cases ha : findAia t.data with
        | none =>
          simp only [firstFailure, hsc, hb, hxd, ha, Option.some.injEq] at h
          exact Or.inr (Or.inr (Or.inl h.symm))
        | some u =>
          cases hcu : env.curl with
          | netFail =>
            simp only [firstFailure, hsc, hb, hxd, ha, hcu, Option.some.injEq] at h
            exact Or.inl ⟨_, h.symm⟩
          | completed st body =>
            by_cases hlen : body.length < 200
            · simp only [firstFailure, hsc, hb, hxd, ha, hcu, hlen, if_true,
                Option.some.injEq] at h
              exact Or.inr (Or.inr (Or.inr (Or.inl h.symm)))
            · by_cases hpem : containsPat beginMark body.data = true
              · simp only [firstFailure, hsc, hb, hxd, ha, hcu, hlen, hpem, if_true,
                  if_false, verifyFailureOf] at h
                by_cases hv : reportsSuccess env = true
                · simp [hv] at h
                · simp [hv] at h
                  exact Or.inr (Or.inr (Or.inr (Or.inr (Or.inr ⟨_, h.symm⟩))))
              · cases hdc : env.derConvert with
                | procFail =>
                  simp [firstFailure, hsc, hb, hxd, ha, hcu, hlen, hpem, hdc] at h
                  exact Or.inl ⟨_, h.symm⟩
                | procOk pem =>
                  by_cases hbc : containsPat bareBeginMark pem.data = true
                  · simp only [firstFailure, hsc, hb, hxd, ha, hcu, hlen, hpem, hdc,
                      hbc, if_true, if_false, verifyFailureOf] at h
                    by_cases hv : reportsSuccess env = true
                    · simp [hv] at h
                    · simp [hv] at h
                      exact Or.inr (Or.inr (Or.inr (Or.inr (Or.inr ⟨_, h.symm⟩))))
                  · simp [firstFailure, hsc, hb, hxd, ha, hcu, hlen, hpem, hdc, hbc] at h
                    exact Or.inr (Or.inr (Or.inr (Or.inr (Or.inl h.symm))))

/-- Unfolding of the bundle text into character lists. -/
theorem bundle_data (roots pem : String) :
    (roots ++ "\n" ++ pem ++ "\n").data
      = roots.data ++ ('\n' :: (pem.data ++ ('\n' :: []))) := by
  simp [String.data_append]

/-! The claims. -/

/-- C1, counterexample: the claim says every run reaching the bundle build
produces a bundle with exactly one issuer certificate block after the root
store.  In the run `envTwoBlocks` the issuer download is a two-certificate PEM
body; `issuer_to_pem` copies it verbatim, and the bundle holds the root store
followed by two issuer certificate blocks. -/
theorem c1_counterexample :
    (main envTwoBlocks fs0).snd.bundlePem
        = some (envTwoBlocks.roots ++ "\n" ++ twoBlockPem ++ "\n")
    ∧ countOcc beginMark twoBlockPem.data = 2 := by
  constructor
  · decide
  · decide

/-- C1 (amended): a run reaching the bundle-building stage writes
`roots ++ "\n" ++ issuer ++ "\n"`: the root store is a contiguous prefix;
when the root store ends with a newline, the bundle's lines are the root
store's lines, exactly one blank separator line, the issuer artifact's lines
and the final newline's empty field; and when the issuer artifact holds
exactly one certificate block — which the normalizer does not guarantee for
multi-block PEM downloads — the bundle holds exactly one more block than the
root store. -/
theorem c1_amended (env : Env) (fs : FS) (pem : String) (r' : List Char)
    (hroots : env.roots.data = r' ++ ['\n'])
    (h12 : stage12Core env.sClientShow env.x509TextDump = true)
    (hic : issuerCore env.curl env.derConvert = some pem)
    (hone : countOcc beginMark pem.data = 1) :
    (main env fs).snd.bundlePem = some (env.roots ++ "\n" ++ pem ++ "\n")
    ∧ env.roots.data <+: (env.roots ++ "\n" ++ pem ++ "\n").data
    ∧ splitLines (env.roots ++ "\n" ++ pem ++ "\n").data
        = splitLines r' ++ ([[]] ++ (splitLines pem.data ++ [[]]))
    ∧ splitLines env.roots.data = splitLines r' ++ [[]]
    ∧ countOcc beginMark (env.roots ++ "\n" ++ pem ++ "\n").data
        = countOcc beginMark env.roots.data + 1 := by
  have hbo : bundleOf env = some (env.roots ++ "\n" ++ pem ++ "\n") := by
    simp [bundleOf, bundleCore, h12, hic]
  have hnl : '\n' ∉ beginMark := by decide
  refine ⟨?_, ?_, ?_, ?_, ?_⟩
  · rw [main_snd, runFS_bundlePem, hbo]
  · exact ⟨("\n" ++ pem ++ "\n").data, by simp [String.data_append]⟩
  · rw [bundle_data, hroots]
    rw [show (r' ++ ['\n']) ++ ('\n' :: (pem.data ++ ('\n' :: [])))
        = r' ++ '\n' :: ('\n' :: (pem.data ++ '\n' :: [])) from by simp]
    rw [splitLines_append]
    simp [splitLines, splitLines_append]
  · rw [hroots, show r' ++ ['\n'] = r' ++ '\n' :: [] from rfl, splitLines_append]
    simp [splitLines]
  · rw [bundle_data]
    rw [show pem.data ++ ('\n' :: []) = pem.data ++ '\n' :: [] from rfl]
    rw [countOcc_append_newline beginMark beginMark_ne_nil hnl _ env.roots.data]
    rw [countOcc_append_newline beginMark beginMark_ne_nil hnl _ pem.data]
    simp [countOcc, hone]

/-- C1, witness: the single-block run `envOk` instantiates the amended claim. -/
theorem c1_amended_witness :
    (main envOk fs0).snd.bundlePem = some (envOk.roots ++ "\n" ++ singleBlockPem ++ "\n") :=
  (c1_amended envOk fs0 singleBlockPem (("ROOT STORE PEM DATA").data)
    (by decide) (by decide) (by decide) (by decide)).1

/-- C2, counterexample: the claim says the issuer-fetch stage fails with
`DownloadError` whenever the HTTP answer is non-2xx.  In the run `env404Big`
the issuer URL answers HTTP 404 with a 213-byte error page; `curl` (run
without `--fail`) exits 0, the 200-byte check passes, and the stage succeeds
with no error at all. -/
theorem c2_counterexample :
    env404Big.curl = CurlResult.completed 404 html404
    ∧ 200 ≤ html404.length
    ∧ download_issuer env404Big ("http://example.test/issuer.crt") fs0
        = (Except.ok (), { fs0 with issuerBin := some html404 }) := by
  refine ⟨rfl, by decide, by decide⟩

/-- C2 (amended): for a completed transfer the stage raises the
`DownloadError` `RuntimeError` exactly when the saved body is under 200
bytes, regardless of the HTTP status; a network error surfaces instead as
`CalledProcessError`; and an HTTP 404 whose body is under 200 bytes makes the
pipeline fail at this stage with the `DownloadError` message, writing no
bundle file. -/
theorem c2_amended (env : Env) (url : String) (fs : FS) (status : Nat) (body : String)
    (hcurl : env.curl = CurlResult.completed status body) :
    (download_issuer env url fs
        = (Except.error (PyExc.runtimeError downloadMsg), { fs with issuerBin := some body })
      ↔ body.length < 200)
    ∧ (∀ env2 : Env, env2.curl = CurlResult.netFail →
        download_issuer env2 url fs
          = (Except.error (PyExc.calledProcessError ("curl -L " ++ url)), fs))
    ∧ (body.length < 200 → stage12Core env.sClientShow env.x509TextDump = true →
        fs.bundlePem = none →
        (main env fs).fst = Except.error (PyExc.runtimeError downloadMsg)
        ∧ (main env fs).snd.bundlePem = none) := by
  refine ⟨?_, ?_, ?_⟩
  · by_cases hlen : body.length < 200
    · simp [download_issuer, hcurl, hlen]
    · simp [download_issuer, hcurl, hlen]
  · intro env2 h2
    simp [download_issuer, h2]
  · intro hlen h12 hb0
    rcases hsc : env.sClientShow with _ | o
    · rw [hsc] at h12
      simp [stage12Core] at h12
    · rw [hsc] at h12
      rcases hb : extractBlock o.data with _ | b
      · simp [stage12Core, hb] at h12
      · rcases hxd : env.x509TextDump with _ | t
        · rw [hxd] at h12
          simp [stage12Core, hb] at h12
        · rw [hxd] at h12
          rcases ha : findAia t.data with _ | u
          · simp [stage12Core, hb, ha] at h12
          · constructor
            · rw [main_fst]
              simp [firstFailure, hsc, hb, hxd, ha, hcurl, hlen]
            · rw [main_snd]
              simp [runFS, hsc, hb, hxd, ha, hcurl, hlen, hb0]

/-- C2, witness: the small-body 404 run instantiates the amended claim. -/
theorem c2_amended_witness :
    (main env404Small fs0).fst = Except.error (PyExc.runtimeError downloadMsg)
    ∧ (main env404Small fs0).snd.bundlePem = none :=
  (c2_amended env404Small ("http://example.test/issuer.crt") fs0 404 ("Not Found")
    rfl).2.2 (by decide) (by decide) rfl

/-- C3, counterexample: the claim says a failure at any of the five stages —
including verification — leaves no final bundle file.  In the run
`envVerifyFail` all stages up to the build succeed, verification fails, the
run terminates with the verification `RuntimeError` — and the bundle file has
already been written and remains on disk. -/
theorem c3_counterexample :
    (main envVerifyFail fs0).fst
        = Except.error (PyExc.runtimeError
            (verifyMsgHead ++ String.mk (verifyTail badVerifyOut "")))
    ∧ (main envVerifyFail fs0).snd.bundlePem
        = some (envVerifyFail.roots ++ "\n" ++ singleBlockPem ++ "\n") := by
  constructor
  · decide
  · decide

/-- C3 (amended): every run terminates with the error of its first failing
stage (fail-fast holds); a failed run leaves a bundle file exactly when
stages 1–4 all succeeded, i.e. failures in stages 1–4 leave no bundle, while
a verification-stage failure happens after the bundle file has been written,
so the (unverified) bundle remains on disk. -/
theorem c3_amended (env : Env) (fs : FS) (h0 : fs.bundlePem = none) :
    ((main env fs).fst = (match firstFailure env with
        | some e => Except.error e
        | none => Except.ok ()))
    ∧ ((main env fs).snd.bundlePem ≠ none ↔ reachesBuild env = true)
    ∧ (reachesBuild env = true → reportsSuccess env = false →
        ∃ pem, issuerCore env.curl env.derConvert = some pem
          ∧ (main env fs).fst = Except.error (PyExc.runtimeError
              (verifyMsgHead ++ String.mk (verifyTail env.verifyStdout env.verifyStderr)))
          ∧ (main env fs).snd.bundlePem = some (env.roots ++ "\n" ++ pem ++ "\n")) := by
  refine ⟨main_fst env fs, ?_, ?_⟩
  · rw [main_snd, runFS_bundlePem]
    rcases hbo : bundleOf env with _ | b
    · have hiso := bundleOf_isSome_eq env
      rw [hbo] at hiso
      simp [h0, ← hiso]
    · have hiso := bundleOf_isSome_eq env
      rw [hbo] at hiso
      simp [← hiso]
  · intro hr hv
    have hff := firstFailure_of_reaches env hr
    have hvf : verifyFailureOf env
        = some (PyExc.runtimeError
            (verifyMsgHead ++ String.mk (verifyTail env.verifyStdout env.verifyStderr))) := by
      simp [verifyFailureOf, hv]
    have h12 : stage12Core env.sClientShow env.x509TextDump = true :=
      (Bool.and_eq_true _ _ |>.mp hr).1
    obtain ⟨pem, hic⟩ : ∃ pem, issuerCore env.curl env.derConvert = some pem := by
      have hiso := (Bool.and_eq_true _ _ |>.mp hr).2
      exact Option.isSome_iff_exists.mp hiso
    refine ⟨pem, hic, ?_, ?_⟩
    · rw [main_fst, hff, hvf]
    · rw [main_snd, runFS_bundlePem]
      have hbo : bundleOf env = some (env.roots ++ "\n" ++ pem ++ "\n") := by
        simp [bundleOf, bundleCore, h12, hic]
      rw [hbo]

/-- C3, witness: the fully successful run instantiates the amended claim's
bundle-availability equivalence. -/
theorem c3_amended_witness :
    (main envOk fs0).snd.bundlePem ≠ none ↔ reachesBuild envOk = true :=
  (c3_amended envOk fs0 rfl).2.1

/-- C4: when the downloaded bytes contain the PEM header marker, the
normalizer is the identity transform — the issuer artifact equals the raw
downloaded bytes byte for byte, the stage succeeds, and its outcome is
independent of the DER→PEM converter, which is therefore never consulted. -/
theorem c4 (env : Env) (fs : FS) (data : String)
    (hbin : fs.issuerBin = some data)
    (hmark : containsPat beginMark data.data = true) :
    issuer_to_pem env fs = (Except.ok (), { fs with issuerPem := some data })
    ∧ (∀ dc : ProcResult,
        issuer_to_pem { env with derConvert := dc } fs = issuer_to_pem env fs) := by
  constructor
  · simp [issuer_to_pem, hbin, hmark]
  · intro dc
    simp [issuer_to_pem, hbin, hmark]

/-- C4, witness: the single-block PEM body passes through unchanged. -/
theorem c4_witness :
    issuer_to_pem envOk { fs0 with issuerBin := some singleBlockPem }
      = (Except.ok (),
          { { fs0 with issuerBin := some singleBlockPem } with
              issuerPem := some singleBlockPem }) :=
  (c4 envOk { fs0 with issuerBin := some singleBlockPem } singleBlockPem rfl (by decide)).1

/-- C5: on a leaf-certificate text dump containing the line
`CA Issuers - URI:http://example.test/issuer.crt` at the first occurrence of
the `CA Issuers - URI:` literal, the issuer locator deterministically returns
exactly the string `http://example.test/issuer.crt`. -/
theorem c5 (env : Env) (fs : FS) (p s : String)
    (hdump : env.x509TextDump = ProcResult.procOk (p ++ aiaLineC5 ++ s))
    (hfirst : firstIdx aiaPat (p ++ aiaLineC5 ++ s).data = some p.data.length) :
    extract_aia_issuer_url env fs = (Except.ok aiaUrlC5, fs) := by
  have hline : aiaLineC5.data = aiaPat ++ (aiaUrlC5.data ++ ['\n']) := by decide
  have hdata : (p ++ aiaLineC5 ++ s).data
      = p.data ++ (aiaPat ++ (aiaUrlC5.data ++ ('\n' :: s.data))) := by
    simp [String.data_append, hline]
  have hdrop : (p ++ aiaLineC5 ++ s).data.drop (p.data.length + aiaPat.length)
      = aiaUrlC5.data ++ ('\n' :: s.data) := by
    rw [hdata, List.drop_append, List.drop_left]
  have hurl : aiaUrlC5.data = 'h' :: (("ttp://example.test/issuer.crt").data) := by decide
  have hfa := findAia_eq_of_first 'h'
    ((("ttp://example.test/issuer.crt").data) ++ ('\n' :: s.data)) (by decide)
    (p ++ aiaLineC5 ++ s).data p.data.length hfirst
    (by rw [hdrop, hurl]; simp)
  have htw : (('h' :: ((("ttp://example.test/issuer.crt").data) ++ ('\n' :: s.data)))).takeWhile
      (fun d => ! isPySpace d) = aiaUrlC5.data := by
    rw [show ('h' :: ((("ttp://example.test/issuer.crt").data) ++ ('\n' :: s.data)))
        = aiaUrlC5.data ++ ('\n' :: s.data) from by rw [hurl]; simp]
    rw [takeWhile_append_all _ _ _ (by decide)]
    simp [List.takeWhile, isPySpace]
  rw [htw] at hfa
  rw [show (p ++ aiaLineC5 ++ s).data = p.data ++ (aiaLineC5.data ++ s.data)
    from by simp [String.data_append]] at hfa
  simp [extract_aia_issuer_url, hdump, hfa]

/-- C5, witness: a concrete dump around the sample line. -/
theorem c5_witness :
    extract_aia_issuer_url envC5 fs0 = (Except.ok aiaUrlC5, fs0) :=
  c5 envC5 fs0 ("X:\n    ") ("    OCSP - URI:http://o\n") rfl (by decide)

/-- C6: on a run whose leaf dump contains no `CA Issuers` text, the locator
raises the `MissingAIAError` `RuntimeError` and the run stops there: the
working directory holds only stage 1's leaf artifact, and no later stage
executes. -/
theorem c6 (env : Env) (fs : FS) (o t : String) (b : List Char)
    (hsc : env.sClientShow = ProcResult.procOk o)
    (hb : extractBlock o.data = some b)
    (hxd : env.x509TextDump = ProcResult.procOk t)
    (hno : containsPat (("CA Issuers").data) t.data = false) :
    main env fs = (Except.error (PyExc.runtimeError missingAiaMsg),
      { fs with leafPem := some (String.mk b ++ "\n") }) := by
  have ha : findAia t.data = none := findAia_none_of_no_ca t.data hno
  rw [main_char]
  simp [firstFailure, runFS, hsc, hb, hxd, ha]

/-- C6, witness: the no-AIA dump run. -/
theorem c6_witness :
    main envNoAia fs0 = (Except.error (PyExc.runtimeError missingAiaMsg),
      { fs0 with leafPem := some (String.mk leafBlockC ++ "\n") }) :=
  c6 envNoAia fs0 sampleLeafOut dumpNoAia leafBlockC rfl (by decide) rfl (by decide)

/-- C7: the verifier succeeds exactly when the success phrase occurs in the
last five lines of the TLS client's combined output (the code's notion of the
client reporting verification success), and on failure it raises a
`RuntimeError` whose message carries those final diagnostic lines. -/
theorem c7 (env : Env) (fs : FS) :
    (verify_bundle env fs = (Except.ok (), fs) ↔ reportsSuccess env = true)
    ∧ (reportsSuccess env = false →
        verify_bundle env fs
          = (Except.error (PyExc.runtimeError
              (verifyMsgHead ++ String.mk (verifyTail env.verifyStdout env.verifyStderr))),
            fs)) := by
  unfold verify_bundle reportsSuccess
  by_cases h : containsPat successPhrase (verifyTail env.verifyStdout env.verifyStderr) = true
  · simp [h]
  · simp [h]

/-- C7, witness: the failing verification output produces the error carrying
its final lines. -/
theorem c7_witness :
    verify_bundle envVerifyFail fs0
      = (Except.error (PyExc.runtimeError
          (verifyMsgHead ++ String.mk (verifyTail badVerifyOut ""))), fs0) :=
  (c7 envVerifyFail fs0).2 (by decide)

/-- C8: given the TLS connection output, the leaf fetcher raises the
`ExtractionError` `RuntimeError` exactly when the output contains no PEM
certificate block, and otherwise writes the first certificate block of the
output (from the first begin marker to the first end marker after it, plus a
trailing newline) as the leaf artifact. -/
theorem c8 (env : Env) (fs : FS) (o : String)
    (hsc : env.sClientShow = ProcResult.procOk o) :
    (fetch_leaf_cert env fs = (Except.error (PyExc.runtimeError extractionMsg), fs)
      ↔ ¬ HasCertBlock o.data)
    ∧ (∀ b, extractBlock o.data = some b →
        fetch_leaf_cert env fs
            = (Except.ok (), { fs with leafPem := some (String.mk b ++ "\n") })
          ∧ FirstBlockAt o.data b) := by
  constructor
  · rw [← extractBlock_none_iff]
    constructor
    · intro h
      rcases hx : extractBlock o.data with _ | b
      · rfl
      · simp [fetch_leaf_cert, hsc, hx] at h
    · intro h
      simp [fetch_leaf_cert, hsc, h]
  · intro b hb
    exact ⟨by simp [fetch_leaf_cert, hsc, hb], extractBlock_some_first _ _ hb⟩

/-- C8, witness: the sample TLS output yields its first block as the leaf. -/
theorem c8_witness :
    fetch_leaf_cert envOk fs0
      = (Except.ok (), { fs0 with leafPem := some (String.mk leafBlockC ++ "\n") }) :=
  ((c8 envOk fs0 sampleLeafOut rfl).2 leafBlockC (by decide)).1

/-- C9: two successful runs against identical collaborator inputs for the
leaf certificate, the leaf dump, the issuer bytes, the converter and the root
store produce byte-identical bundle content, whatever the initial state of
the working directory and whatever the verification outputs. -/
theorem c9 (env1 env2 : Env) (fs1 fs2 : FS)
    (h1 : env1.sClientShow = env2.sClientShow)
    (h2 : env1.x509TextDump = env2.x509TextDump)
    (h3 : env1.curl = env2.curl)
    (h4 : env1.derConvert = env2.derConvert)
    (h5 : env1.roots = env2.roots)
    (hok1 : (main env1 fs1).fst = Except.ok ())
    (hok2 : (main env2 fs2).fst = Except.ok ()) :
    ∃ b, (main env1 fs1).snd.bundlePem = some b
      ∧ (main env2 fs2).snd.bundlePem = some b := by
  have key : ∀ (env : Env) (fs : FS), (main env fs).fst = Except.ok () →
      (main env fs).snd.bundlePem = bundleOf env ∧ (bundleOf env).isSome = true := by
    intro env fs hok
    rw [main_fst] at hok
    have hff : firstFailure env = none := by
      rcases hffx : firstFailure env with _ | e
      · rfl
      · rw [hffx] at hok
        exact absurd hok (by simp)
    have hreach := firstFailure_none_reaches env hff
    have hiso : (bundleOf env).isSome = true := by
      rw [bundleOf_isSome_eq, hreach]
    refine ⟨?_, hiso⟩
    rw [main_snd, runFS_bundlePem]
    rcases hbo : bundleOf env with _ | b
    · rw [hbo] at hiso
      simp at hiso
    · rfl
  obtain ⟨e1, e2⟩ := key env1 fs1 hok1
  obtain ⟨f1, f2⟩ := key env2 fs2 hok2
  have hbeq : bundleOf env1 = bundleOf env2 := by
    simp only [bundleOf, h1, h2, h3, h4, h5]
  rcases hbo : bundleOf env2 with _ | b
  · rw [hbo] at f2
    simp at f2
  · exact ⟨b, by rw [e1, hbeq, hbo], by rw [f1, hbo]⟩

/-- C9, witness: two successful runs differing only in verification stderr
produce the same bundle. -/
theorem c9_witness :
    ∃ b, (main envOk fs0).snd.bundlePem = some b
      ∧ (main envOk2 fs0).snd.bundlePem = some b :=
  c9 envOk envOk2 fs0 fs0 rfl rfl rfl rfl rfl (by decide) (by decide)

/-- C10: every exception a run raises is either a propagated
`CalledProcessError` from a collaborator process or one of the five scripted
`RuntimeError`s — the same exception type for all five spec categories — and
those five messages (the four fixed ones and the verification prefix, which
no verification message can collide away) are pairwise distinct, so the
categories are distinguishable by message text only. -/
theorem c10 (env : Env) (fs : FS) (e : PyExc) (fs' : FS)
    (h : main env fs = (Except.error e, fs')) :
    ((∃ c, e = PyExc.calledProcessError c)
      ∨ e = PyExc.runtimeError extractionMsg
      ∨ e = PyExc.runtimeError missingAiaMsg
      ∨ e = PyExc.runtimeError downloadMsg
      ∨ e = PyExc.runtimeError conversionMsg
      ∨ (∃ tailMsg, e = PyExc.runtimeError (verifyMsgHead ++ tailMsg)))
    ∧ List.Pairwise (· ≠ ·)
        ([extractionMsg, missingAiaMsg, downloadMsg, conversionMsg, verifyMsgHead])
    ∧ (∀ tailMsg : String,
        (verifyMsgHead ++ tailMsg) ≠ extractionMsg
        ∧ (verifyMsgHead ++ tailMsg) ≠ missingAiaMsg
        ∧ (verifyMsgHead ++ tailMsg) ≠ downloadMsg
        ∧ (verifyMsgHead ++ tailMsg) ≠ conversionMsg) := by
  have hfst : (main env fs).fst = Except.error e := by rw [h]
  rw [main_fst] at hfst
  have hff : firstFailure env = some e := by
    rcases hffx : firstFailure env with _ | e'
    · rw [hffx] at hfst
      exact absurd hfst (by simp)
    · rw [hffx] at hfst
      obtain rfl := Except.error.inj hfst
      rfl
  refine ⟨firstFailure_shapes env e hff, by decide, ?_⟩
  intro tailMsg
  have hB : (verifyMsgHead ++ tailMsg).data.head? = some 'B' := by
    rw [String.data_append]
    rfl
  refine ⟨?_, ?_, ?_, ?_⟩
  all_goals
    intro heq
    rw [heq] at hB
    revert hB
    decide

/-- C10, witness: the extraction failure run raises the `ExtractionError`
message, one of the five pairwise-distinct scripted messages. -/
theorem c10_witness :
    List.Pairwise (· ≠ ·)
      ([extractionMsg, missingAiaMsg, downloadMsg, conversionMsg, verifyMsgHead]) :=
  (c10 envNoBlock fs0 (PyExc.runtimeError extractionMsg) fs0 (by decide)).2.1

end RebuildCert
